import Mathlib

/-!
Shallow embedding of `analisador_sequencias.py` (DNA/RNA sequence analyzer).
Sequences are modelled as `List Char`; Python strings become character lists,
`str.replace(x, '')` becomes `List.filter`, and the float arithmetic of
`calcular_conteudo_gc` is modelled over `ℚ` with Python's round-half-to-even.
Python's `str.upper` is modelled on the ASCII range (the only range exercised
by the program's alphabets).
-/

/-- Alphabet accepted by `validar_dna` (source line 98). -/
def dnaBases : List Char := ['A', 'T', 'C', 'G']

/-- Alphabet accepted by `validar_rna` (source line 110). -/
def rnaBases : List Char := ['A', 'U', 'C', 'G']

/-- Embedding of `validar_dna` (lines 93-102): scan the sequence, returning
`false` at the first symbol outside `{A,T,C,G}`, `true` if none is found. -/
def validar_dna : List Char → Bool
  | [] => true
  | base :: resto => if base ∈ dnaBases then validar_dna resto else false

/-- Embedding of `validar_rna` (lines 105-114): scan the sequence, returning
`false` at the first symbol outside `{A,U,C,G}`, `true` if none is found. -/
def validar_rna : List Char → Bool
  | [] => true
  | base :: resto => if base ∈ rnaBases then validar_rna resto else false

/-- The three sequence kinds the program assigns (`tipo_atual` values
`DNA`, `RNA`, `Desconhecido` in `main`). -/
inductive Tipo where
  | DNA
  | RNA
  | Desconhecido
deriving DecidableEq, Repr

/-- Classification as performed in `main` (lines 280-293 and 317-328):
`validar_dna` is tried first, then `validar_rna`, else `Desconhecido`. -/
def classificar (s : List Char) : Tipo :=
  if validar_dna s then Tipo.DNA
  else if validar_rna s then Tipo.RNA
  else Tipo.Desconhecido

/-- Embedding of `transcrever_dna_para_rna` (lines 149-155):
`sequencia_dna.replace('T', 'U')`, a per-character substitution. -/
def transcrever_dna_para_rna : List Char → List Char
  | [] => []
  | c :: resto => (if c = 'T' then 'U' else c) :: transcrever_dna_para_rna resto

/-- The `complemento` dictionary of `gerar_complemento_reverso` (line 165):
`{'A': 'T', 'T': 'A', 'C': 'G', 'G': 'C'}`, `none` for a key not present. -/
def complemento (c : Char) : Option Char :=
  if c = 'A' then some 'T'
  else if c = 'T' then some 'A'
  else if c = 'C' then some 'G'
  else if c = 'G' then some 'C'
  else none

/-- Total complement map on characters: the involution `A↔T`, `C↔G`,
identity elsewhere (used only to state properties of the embedding). -/
def complChar (c : Char) : Char :=
  if c = 'A' then 'T'
  else if c = 'T' then 'A'
  else if c = 'C' then 'G'
  else if c = 'G' then 'C'
  else c

/-- Embedding of `gerar_complemento_reverso` (lines 158-173): left-to-right
loop prepending the complement of each mapped base; bases without an entry in
`complemento` are skipped. -/
def gerar_complemento_reverso (sequencia : List Char) : List Char :=
  sequencia.foldl
    (fun acc base =>
      match complemento base with
      | some d => d :: acc
      | none => acc)
    []

/-- ASCII model of Python's `str.upper` applied per character: lowercase
`a`-`z` (codes 97-122) map down by 32, all else unchanged. -/
def pyUpper (c : Char) : Char :=
  if 97 ≤ c.toNat ∧ c.toNat ≤ 122 then Char.ofNat (c.toNat - 32) else c

/-- Embedding of `encontrar_motivos` (lines 176-191): upper-case motif and
sequence, slide a window of the motif's length over
`range(len(sequencia) - len(motivo) + 1)` (empty when the motif is longer,
as in Python's `range` of a non-positive bound), and collect 1-based start
positions of exact matches. -/
def encontrar_motivos (sequencia motivo : List Char) : List Nat :=
  let m := motivo.map pyUpper
  let s := sequencia.map pyUpper
  (List.range (((s.length : Int) - m.length + 1).toNat)).filterMap
    (fun i => if (s.drop i).take m.length = m then some (i + 1) else none)

/-- Python's `round` to an integer: round half to even (banker's rounding). -/
def roundHalfEven (q : ℚ) : ℤ :=
  if Int.fract q < 1 / 2 then ⌊q⌋
  else if 1 / 2 < Int.fract q then ⌊q⌋ + 1
  else if ⌊q⌋ % 2 = 0 then ⌊q⌋ else ⌊q⌋ + 1

/-- Python's `round(x, 2)`: round to two decimal places, half to even. -/
def pyRound2 (q : ℚ) : ℚ := (roundHalfEven (q * 100) : ℚ) / 100

/-- Embedding of `calcular_conteudo_gc` (lines 131-146): `0` for the empty
sequence, else `round(((count G + count C) / len) * 100, 2)`. -/
def calcular_conteudo_gc (sequencia : List Char) : ℚ :=
  if sequencia.length = 0 then 0
  else
    let g := sequencia.count 'G'
    let c := sequencia.count 'C'
    let total := sequencia.length
    pyRound2 (((g : ℚ) + (c : ℚ)) / (total : ℚ) * 100)

/-- Whitespace characters removed by Python's `str.strip()` (ASCII range). -/
def isPySpace (c : Char) : Bool :=
  c = ' ' || c = '\t' || c = '\n' || c = '\r' || c = '\x0b' || c = '\x0c'

/-- Python's `str.strip()`: drop leading and trailing whitespace. -/
def pyStrip (s : List Char) : List Char :=
  ((s.dropWhile isPySpace).reverse.dropWhile isPySpace).reverse

/-- Normalization of a typed sequence in `main`, option 1 (lines 276-277):
`input().strip().upper()` then `.replace(' ', '').replace('\n', '')`. -/
def normalize_typed (raw : List Char) : List Char :=
  (((pyStrip raw).map pyUpper).filter (fun c => decide (c ≠ ' '))).filter
    (fun c => decide (c ≠ '\n'))

/-- FASTA extraction and normalization in `buscar_sequencia_ncbi`
(lines 57-60): `response.text.strip().split('\n')`, drop lines starting with
`>` and join the rest, then `.upper().replace(' ', '').replace('\n', '')`. -/
def extract_ncbi (raw : List Char) : List Char :=
  let linhas := (pyStrip raw).splitOn '\n'
  let corpo := (linhas.filter (fun l => decide (¬ l.head? = some '>'))).flatten
  ((corpo.map pyUpper).filter (fun c => decide (c ≠ ' '))).filter
    (fun c => decide (c ≠ '\n'))

/-- Outcome of the network request in `buscar_sequencia_ncbi`: the raised
`RequestException` covers connection failures and, via `raise_for_status`,
non-2xx responses; on success the raw FASTA body text is available. -/
inductive FetchOutcome where
  | erro_rede
  | erro_http
  | sucesso (corpo : List Char)

/-- Embedding of `buscar_sequencia_ncbi` (lines 29-75) as a function of the
request outcome: any exception yields `none`; a successful response has its
FASTA body extracted and normalized, with an empty result also yielding
`none` (lines 62-67). -/
def buscar_sequencia_ncbi : FetchOutcome → Option (List Char)
  | FetchOutcome.erro_rede => none
  | FetchOutcome.erro_http => none
  | FetchOutcome.sucesso corpo =>
      let s := extract_ncbi corpo
      if s = [] then none else some s

/-- The shell state held across menu iterations in `main` (lines 268-269):
`sequencia_atual` and `tipo_atual`, both initially `None`. -/
structure EstadoAtual where
  sequencia_atual : Option (List Char)
  tipo_atual : Option Tipo
deriving DecidableEq, Repr

/-- Menu option 2 of `main` (lines 297-330) as a state transition: with an
empty accession id, or when `buscar_sequencia_ncbi` returns `None`, the state
is untouched; otherwise the fetched sequence is stored and classified. -/
def opcao2 (st : EstadoAtual) (accession : List Char) (r : FetchOutcome) :
    EstadoAtual :=
  if accession = [] then st
  else
    match buscar_sequencia_ncbi r with
    | none => st
    | some s => ⟨some s, some (classificar s)⟩

/-- What menu option 3 of `main` (lines 332-351) produces: whether the
kind-mismatch warning is printed, and the transcribed output, `none` when
the option bails out for lack of a loaded sequence. -/
structure ResultadoOpcao3 where
  aviso_tipo : Bool
  rna : Option (List Char)
deriving DecidableEq, Repr

/-- Menu option 3 of `main` (lines 332-351): with no sequence loaded the
option aborts (`continue`); otherwise a warning is printed when
`tipo_atual != 'DNA'` and the transcription is run regardless. -/
def opcao3 (st : EstadoAtual) : ResultadoOpcao3 :=
  match st.sequencia_atual with
  | none => ⟨false, none⟩
  | some s =>
      ⟨decide (st.tipo_atual ≠ some Tipo.DNA),
       some (transcrever_dna_para_rna s)⟩

/-! ### Helper lemmas -/

/-- The early-return loop of `validar_dna` accepts exactly the strings over
`{A,T,C,G}`. -/
lemma validar_dna_iff (s : List Char) :
    validar_dna s = true ↔ ∀ c ∈ s, c ∈ dnaBases := by
  induction s with
  | nil => simp [validar_dna]
  | cons c resto ih =>
    by_cases hc : c ∈ dnaBases <;> simp [validar_dna, hc, ih]

/-- The early-return loop of `validar_rna` accepts exactly the strings over
`{A,U,C,G}`. -/
lemma validar_rna_iff (s : List Char) :
    validar_rna s = true ↔ ∀ c ∈ s, c ∈ rnaBases := by
  induction s with
  | nil => simp [validar_rna]
  | cons c resto ih =>
    by_cases hc : c ∈ rnaBases <;> simp [validar_rna, hc, ih]

/-- Unrolled form of `transcrever_dna_para_rna` as a per-character map. -/
lemma transcrever_eq_map (s : List Char) :
    transcrever_dna_para_rna s = s.map (fun c => if c = 'T' then 'U' else c) := by
  induction s with
  | nil => rfl
  | cons c resto ih => simp [transcrever_dna_para_rna, ih]

/-- A base with an entry in the `complemento` dictionary maps to its
complement. -/
lemma complemento_eq_some (c : Char) (hc : c ∈ dnaBases) :
    complemento c = some (complChar c) := by
  simp only [dnaBases, List.mem_cons, List.not_mem_nil, or_false] at hc
  rcases hc with rfl | rfl | rfl | rfl <;> rfl

/-- A base without an entry in the `complemento` dictionary is skipped. -/
lemma complemento_eq_none (c : Char) (hc : c ∉ dnaBases) :
    complemento c = none := by
  simp only [dnaBases, List.mem_cons, List.not_mem_nil, or_false, not_or] at hc
  simp [complemento, hc.1, hc.2.1, hc.2.2.1, hc.2.2.2]

/-- The prepend-loop of `gerar_complemento_reverso`, generalized over the
accumulator. -/
lemma gcr_foldl (s acc : List Char) :
    List.foldl
        (fun acc base =>
          match complemento base with
          | some d => d :: acc
          | none => acc)
        acc s
      = (s.filterMap complemento).reverse ++ acc := by
  induction s generalizing acc with
  | nil => simp
  | cons c resto ih =>
    cases hc : complemento c <;>
      simp [List.foldl_cons, List.filterMap_cons, hc, ih]

/-- The prepend-loop builds the reverse of the mapped-and-filtered list. -/
lemma gcr_eq_reverse_filterMap (s : List Char) :
    gerar_complemento_reverso s = (s.filterMap complemento).reverse := by
  unfold gerar_complemento_reverso
  rw [gcr_foldl]
  simp

/-- Partial complement mapping as filtering followed by the total map. -/
lemma filterMap_complemento (s : List Char) :
    s.filterMap complemento
      = (s.filter (fun c => decide (c ∈ dnaBases))).map complChar := by
  induction s with
  | nil => rfl
  | cons c resto ih =>
    by_cases hc : c ∈ dnaBases
    · simp [List.filterMap_cons, List.filter_cons, hc,
        complemento_eq_some c hc, ih]
    · simp [List.filterMap_cons, List.filter_cons, hc,
        complemento_eq_none c hc, ih]

/-- The total complement map is an involution. -/
lemma complChar_involutive (c : Char) : complChar (complChar c) = c := by
  by_cases h1 : c = 'A'
  · subst h1; rfl
  by_cases h2 : c = 'T'
  · subst h2; rfl
  by_cases h3 : c = 'C'
  · subst h3; rfl
  by_cases h4 : c = 'G'
  · subst h4; rfl
  simp [complChar, h1, h2, h3, h4]

/-- The total complement map preserves the DNA alphabet. -/
lemma complChar_mem_dna (c : Char) (hc : c ∈ dnaBases) :
    complChar c ∈ dnaBases := by
  simp only [dnaBases, List.mem_cons, List.not_mem_nil, or_false] at hc
  rcases hc with rfl | rfl | rfl | rfl <;> decide

/-! ### Claims -/

/-- C1: classification is total and mutually exclusive. For every normalized
input string, exactly one of DNA, RNA, or Unrecognized is assigned, in the
order DNA-check first, then RNA-check, else Unrecognized; in particular a
string over the common sub-alphabet `{A,C,G}` (including the empty string)
is classified DNA, not RNA. -/
theorem c1_classificar_total_exclusiva (s : List Char) :
    (classificar s = Tipo.DNA ∨ classificar s = Tipo.RNA ∨
      classificar s = Tipo.Desconhecido) ∧
    (classificar s = Tipo.DNA ↔ ∀ c ∈ s, c ∈ dnaBases) ∧
    (classificar s = Tipo.RNA ↔
      ¬ (∀ c ∈ s, c ∈ dnaBases) ∧ ∀ c ∈ s, c ∈ rnaBases) ∧
    (classificar s = Tipo.Desconhecido ↔
      ¬ (∀ c ∈ s, c ∈ dnaBases) ∧ ¬ (∀ c ∈ s, c ∈ rnaBases)) ∧
    ((∀ c ∈ s, c ∈ (['A', 'C', 'G'] : List Char)) → classificar s = Tipo.DNA) := by
  have hacg : (∀ c ∈ s, c ∈ (['A', 'C', 'G'] : List Char)) →
      ∀ c ∈ s, c ∈ dnaBases := by
    intro h c hc
    have := h c hc
    simp only [List.mem_cons, List.not_mem_nil, or_false] at this
    rcases this with rfl | rfl | rfl <;> decide
  have hd := validar_dna_iff s
  have hr := validar_rna_iff s
  unfold classificar
  by_cases h1 : validar_dna s = true
  · rw [if_pos h1]
    exact ⟨Or.inl rfl,
      iff_of_true rfl (hd.mp h1),
      iff_of_false (by decide) (fun hx => hx.1 (hd.mp h1)),
      iff_of_false (by decide) (fun hx => hx.1 (hd.mp h1)),
      fun _ => rfl⟩
  · have hP : ¬ ∀ c ∈ s, c ∈ dnaBases := fun hp => h1 (hd.mpr hp)
    by_cases h2 : validar_rna s = true
    · rw [if_neg h1, if_pos h2]
      exact ⟨Or.inr (Or.inl rfl),
        iff_of_false (by decide) hP,
        iff_of_true rfl ⟨hP, hr.mp h2⟩,
        iff_of_false (by decide) (fun hx => hx.2 (hr.mp h2)),
        fun h => absurd (hacg h) hP⟩
    · have hQ : ¬ ∀ c ∈ s, c ∈ rnaBases := fun hq => h2 (hr.mpr hq)
      rw [if_neg h1, if_neg h2]
      exact ⟨Or.inr (Or.inr rfl),
        iff_of_false (by decide) hP,
        iff_of_false (by decide) (fun hx => hQ hx.2),
        iff_of_true rfl ⟨hP, hQ⟩,
        fun h => absurd (hacg h) hP⟩

/-- Witness for C1 at the spec's example `"ACGACG"` over `{A,C,G}` only. -/
theorem c1_witness :
    classificar ['A', 'C', 'G', 'A', 'C', 'G'] = Tipo.DNA :=
  (c1_classificar_total_exclusiva ['A', 'C', 'G', 'A', 'C', 'G']).2.2.2.2
    (by decide)

/-- C2: for every sequence over `{A,T,C,G}`, the reverse complement is an
involution: applying it twice returns the original sequence. -/
theorem c2_complemento_reverso_involucao (s : List Char)
    (h : ∀ c ∈ s, c ∈ dnaBases) :
    gerar_complemento_reverso (gerar_complemento_reverso s) = s := by
  have hfilter : s.filter (fun c => decide (c ∈ dnaBases)) = s :=
    List.filter_eq_self.mpr (by simpa using h)
  have h1 : gerar_complemento_reverso s = (s.map complChar).reverse := by
    rw [gcr_eq_reverse_filterMap, filterMap_complemento, hfilter]
  have h2 : ∀ c ∈ (s.map complChar).reverse, c ∈ dnaBases := by
    intro c hc
    rw [List.mem_reverse, List.mem_map] at hc
    obtain ⟨d, hd, rfl⟩ := hc
    exact complChar_mem_dna d (h d hd)
  have hfilter2 :
      ((s.map complChar).reverse).filter (fun c => decide (c ∈ dnaBases))
        = (s.map complChar).reverse :=
    List.filter_eq_self.mpr (by simpa using h2)
  rw [h1, gcr_eq_reverse_filterMap, filterMap_complemento, hfilter2,
    List.map_reverse, List.reverse_reverse, List.map_map]
  have hcc : complChar ∘ complChar = id := funext complChar_involutive
  rw [hcc, List.map_id]

/-- Witness for C2 at the concrete DNA sequence `"GATC"`. -/
theorem c2_witness :
    gerar_complemento_reverso (gerar_complemento_reverso ['G', 'A', 'T', 'C'])
      = ['G', 'A', 'T', 'C'] :=
  c2_complemento_reverso_involucao ['G', 'A', 'T', 'C'] (by decide)

/-- C3: transcription replaces every `T` with `U` and leaves every other
symbol unchanged, as a total per-character map; for a DNA sequence the result
contains no `T` and has the same length, and `"ATGC"` transcribes to
`"AUGC"`. -/
theorem c3_transcricao (s : List Char) :
    transcrever_dna_para_rna s
        = s.map (fun c => if c = 'T' then 'U' else c) ∧
    ((∀ c ∈ s, c ∈ dnaBases) → 'T' ∉ transcrever_dna_para_rna s) ∧
    (transcrever_dna_para_rna s).length = s.length ∧
    transcrever_dna_para_rna ['A', 'T', 'G', 'C'] = ['A', 'U', 'G', 'C'] := by
  refine ⟨transcrever_eq_map s, ?_, ?_, by decide⟩
  · intro _ hT
    rw [transcrever_eq_map, List.mem_map] at hT
    obtain ⟨c, _, hc⟩ := hT
    by_cases h : c = 'T' <;> simp [h] at hc
  · rw [transcrever_eq_map, List.length_map]

/-- Witness for C3 at the spec's example `"ATGC"`. -/
theorem c3_witness :
    'T' ∉ transcrever_dna_para_rna ['A', 'T', 'G', 'C'] ∧
    transcrever_dna_para_rna ['A', 'T', 'G', 'C'] = ['A', 'U', 'G', 'C'] :=
  ⟨(c3_transcricao ['A', 'T', 'G', 'C']).2.1 (by decide),
   (c3_transcricao ['A', 'T', 'G', 'C']).2.2.2⟩

/-- C6: for every sequence, the reverse complement equals filtering to the
symbols in `{A,T,C,G}`, mapping each through the complement involution, and
reversing; a symbol outside `{A,T,C,G}` is silently dropped, never an
error. -/
theorem c6_complemento_reverso_descarta (s : List Char) :
    gerar_complemento_reverso s
        = ((s.filter (fun c => decide (c ∈ dnaBases))).map complChar).reverse ∧
    (∀ c, c ∉ dnaBases →
      gerar_complemento_reverso (c :: s) = gerar_complemento_reverso s) := by
  constructor
  · rw [gcr_eq_reverse_filterMap, filterMap_complemento]
  · intro c hc
    rw [gcr_eq_reverse_filterMap, gcr_eq_reverse_filterMap]
    simp [List.filterMap_cons, complemento_eq_none c hc]

/-- Witness for C6: prepending the RNA symbol `U` leaves the reverse
complement of `"AC"` unchanged. -/
theorem c6_witness :
    gerar_complemento_reverso ['U', 'A', 'C']
      = gerar_complemento_reverso ['A', 'C'] :=
  (c6_complemento_reverso_descarta ['A', 'C']).2 'U' (by decide)

/-- Rounding an integer-valued rational is the identity. -/
lemma roundHalfEven_intCast (n : ℤ) : roundHalfEven ((n : ℚ)) = n := by
  unfold roundHalfEven
  rw [Int.fract_intCast, Int.floor_intCast]
  norm_num

/-- The non-empty branch of `calcular_conteudo_gc`, spelled out. -/
lemma calcular_conteudo_gc_pos (s : List Char) (h : ¬ s.length = 0) :
    calcular_conteudo_gc s
      = pyRound2 (((s.count 'G' : ℚ) + (s.count 'C' : ℚ)) / (s.length : ℚ) * 100) := by
  unfold calcular_conteudo_gc
  rw [if_neg h]

/-- Concrete GC evaluation: an all-GC sequence scores 100 percent. -/
lemma gc_ggcc : calcular_conteudo_gc ['G', 'G', 'C', 'C'] = 100 := by
  rw [calcular_conteudo_gc_pos _ (by decide)]
  unfold pyRound2
  have h1 : ((List.count 'G' ['G', 'G', 'C', 'C'] : ℚ)
        + (List.count 'C' ['G', 'G', 'C', 'C'] : ℚ))
        / ((List.length ['G', 'G', 'C', 'C'] : ℚ)) * 100 * 100
      = ((10000 : ℤ) : ℚ) := by
    norm_num [(by decide : List.count 'G' ['G', 'G', 'C', 'C'] = 2),
      (by decide : List.count 'C' ['G', 'G', 'C', 'C'] = 2)]
  rw [h1, roundHalfEven_intCast]
  norm_num

/-- Concrete GC evaluation: a GC-free sequence scores 0 percent. -/
lemma gc_aatt : calcular_conteudo_gc ['A', 'A', 'T', 'T'] = 0 := by
  rw [calcular_conteudo_gc_pos _ (by decide)]
  unfold pyRound2
  have h1 : ((List.count 'G' ['A', 'A', 'T', 'T'] : ℚ)
        + (List.count 'C' ['A', 'A', 'T', 'T'] : ℚ))
        / ((List.length ['A', 'A', 'T', 'T'] : ℚ)) * 100 * 100
      = ((0 : ℤ) : ℚ) := by
    norm_num [(by decide : List.count 'G' ['A', 'A', 'T', 'T'] = 0),
      (by decide : List.count 'C' ['A', 'A', 'T', 'T'] = 0)]
  rw [h1, roundHalfEven_intCast]
  norm_num

/-- C4: for every non-empty sequence, the GC content is
`(count G + count C) / length * 100` rounded to two decimal places; the empty
sequence yields exactly 0 with no division fault, `"GGCC"` scores `100.0`
and `"AATT"` scores `0.0`. -/
theorem c4_conteudo_gc (s : List Char) (h : s ≠ []) :
    calcular_conteudo_gc s
        = pyRound2 (((s.count 'G' : ℚ) + (s.count 'C' : ℚ)) / (s.length : ℚ) * 100) ∧
    calcular_conteudo_gc [] = 0 ∧
    calcular_conteudo_gc ['G', 'G', 'C', 'C'] = 100 ∧
    calcular_conteudo_gc ['A', 'A', 'T', 'T'] = 0 :=
  ⟨calcular_conteudo_gc_pos s (by simpa [List.length_eq_zero] using h),
   rfl, gc_ggcc, gc_aatt⟩

/-- Witness for C4 at the spec's example `"GGCC"`. -/
theorem c4_witness :
    calcular_conteudo_gc ['G', 'G', 'C', 'C']
      = pyRound2 (((List.count 'G' ['G', 'G', 'C', 'C'] : ℚ)
          + (List.count 'C' ['G', 'G', 'C', 'C'] : ℚ))
          / ((List.length ['G', 'G', 'C', 'C'] : ℚ)) * 100) :=
  (c4_conteudo_gc ['G', 'G', 'C', 'C'] (by decide)).1

/-- The positions reported by `encontrar_motivos` are strictly increasing:
the window scan visits start indices in increasing order. -/
lemma encontrar_motivos_sorted (s m : List Char) :
    List.Sorted (· < ·) (encontrar_motivos s m) := by
  unfold encontrar_motivos
  refine List.pairwise_filterMap.mpr
    (List.Pairwise.imp ?_ (List.pairwise_lt_range _))
  intro a b hab x hx y hy
  simp only [Option.mem_def] at hx hy
  split at hx
  · cases hx
    split at hy
    · cases hy
      omega
    · cases hy
  · cases hx

/-- Characterization of membership in the result of `encontrar_motivos`:
the 1-based positions of every in-range window of the upper-cased sequence
matching the upper-cased motif. -/
lemma encontrar_motivos_mem (s m : List Char) (p : Nat) :
    p ∈ encontrar_motivos s m ↔
      1 ≤ p ∧ p + m.length ≤ s.length + 1 ∧
      ((s.map pyUpper).drop (p - 1)).take m.length = m.map pyUpper := by
  simp only [encontrar_motivos, List.mem_filterMap, List.mem_range,
    List.length_map]
  constructor
  · rintro ⟨i, hi, hif⟩
    split at hif
    case isTrue hcond =>
      cases hif
      refine ⟨by omega, by omega, ?_⟩
      have hpi : i + 1 - 1 = i := by omega
      rw [hpi]
      exact hcond
    case isFalse => cases hif
  · rintro ⟨h1, h2, h3⟩
    refine ⟨p - 1, by omega, ?_⟩
    rw [if_pos (by rw [h3])]
    congr 1
    omega

/-- A motif longer than the sequence yields the empty position list. -/
lemma encontrar_motivos_nil (s m : List Char) (h : s.length < m.length) :
    encontrar_motivos s m = [] := by
  rw [List.eq_nil_iff_forall_not_mem]
  intro p hp
  rw [encontrar_motivos_mem] at hp
  omega

/-- C5: the motif search returns the strictly increasing list of exactly the
1-based start positions where the upper-cased window of the motif's length
equals the upper-cased motif, counting overlaps; a motif longer than the
sequence yields the empty list rather than an error, and
`findMotif("GATCGATC", "ATC") = [2, 6]`. -/
theorem c5_encontrar_motivos (s m : List Char) (p : Nat) :
    List.Sorted (· < ·) (encontrar_motivos s m) ∧
    (p ∈ encontrar_motivos s m ↔
      1 ≤ p ∧ p + m.length ≤ s.length + 1 ∧
      ((s.map pyUpper).drop (p - 1)).take m.length = m.map pyUpper) ∧
    (s.length < m.length → encontrar_motivos s m = []) ∧
    encontrar_motivos ['G', 'A', 'T', 'C', 'G', 'A', 'T', 'C'] ['A', 'T', 'C']
      = [2, 6] :=
  ⟨encontrar_motivos_sorted s m, encontrar_motivos_mem s m p,
   encontrar_motivos_nil s m, by decide⟩

/-- Witness for C5: a motif longer than the sequence yields `[]`. -/
theorem c5_witness : encontrar_motivos ['A'] ['A', 'A'] = [] :=
  (c5_encontrar_motivos ['A'] ['A', 'A'] 1).2.2.1 (by decide)

/-- C10: the empty motif is not rejected: the search returns every position
`1, 2, ..., length(s)+1`, including the position one past the last symbol,
for a total of `length(s)+1` matches. -/
theorem c10_motivo_vazio (s : List Char) :
    encontrar_motivos s [] = (List.range (s.length + 1)).map (fun i => i + 1) ∧
    (encontrar_motivos s []).length = s.length + 1 := by
  have h : encontrar_motivos s []
      = (List.range (s.length + 1)).map (fun i => i + 1) := by
    simp only [encontrar_motivos, List.map_nil, List.length_nil,
      List.length_map, List.take_zero, Nat.cast_zero, if_pos]
    have hN : (((s.length : Int)) - 0 + 1).toNat = s.length + 1 := by omega
    rw [hN]
    show List.filterMap (some ∘ fun i => i + 1) (List.range (s.length + 1)) = _
    rw [List.filterMap_eq_map]
  exact ⟨h, by rw [h]; simp⟩

/-- C7 counterexample: with a loaded RNA sequence (kind ≠ DNA), menu
option 3 prints the kind-mismatch warning but still produces transcribed
output instead of skipping the operation, refuting the claim that the
transcription is skipped entirely. -/
theorem c7_counterexample :
    (opcao3 ⟨some ['A', 'U', 'G'], some Tipo.RNA⟩).rna = some ['A', 'U', 'G'] ∧
    (opcao3 ⟨some ['A', 'U', 'G'], some Tipo.RNA⟩).aviso_tipo = true ∧
    ¬ (opcao3 ⟨some ['A', 'U', 'G'], some Tipo.RNA⟩).rna = none := by
  refine ⟨rfl, rfl, ?_⟩
  intro h
  cases h

/-- C7 (amended): when a transcription is requested with any loaded
sequence, the transcription always runs and produces output, with a warning
exactly when the loaded kind is not DNA; the operation is skipped only when
no sequence is loaded. -/
theorem c7_amended (st : EstadoAtual) (s : List Char)
    (h : st.sequencia_atual = some s) :
    (opcao3 st).rna = some (transcrever_dna_para_rna s) ∧
    ((opcao3 st).aviso_tipo = true ↔ st.tipo_atual ≠ some Tipo.DNA) ∧
    (∀ st2 : EstadoAtual, st2.sequencia_atual = none →
      opcao3 st2 = ⟨false, none⟩) := by
  refine ⟨?_, ?_, ?_⟩
  · simp [opcao3, h]
  · simp [opcao3, h]
  · intro st2 h2
    simp [opcao3, h2]

/-- Witness for C7 (amended) at a loaded RNA sequence. -/
theorem c7_witness :
    (opcao3 ⟨some ['A', 'C'], some Tipo.RNA⟩).rna
      = some (transcrever_dna_para_rna ['A', 'C']) :=
  (c7_amended ⟨some ['A', 'C'], some Tipo.RNA⟩ ['A', 'C'] rfl).1

/-- Characters produced by `Char.ofNat` in the uppercase ASCII range keep
their code point. -/
lemma toNat_ofNat_upper (n : Nat) (h1 : 65 ≤ n) (h2 : n ≤ 90) :
    (Char.ofNat n).toNat = n := by
  interval_cases n <;> decide

/-- The ASCII upper-case map never produces a lowercase ASCII letter. -/
lemma pyUpper_not_lower (c : Char) :
    ¬ (97 ≤ (pyUpper c).toNat ∧ (pyUpper c).toNat ≤ 122) := by
  unfold pyUpper
  split_ifs with h
  · rw [toNat_ofNat_upper (c.toNat - 32) (by omega) (by omega)]
    omega
  · exact h

/-- C8 counterexample: the typed-input normalization does not remove a tab,
so a Sequence can contain whitespace, refuting the claim that ingestion
removes whitespace characters of every kind. -/
theorem c8_counterexample :
    '\t' ∈ normalize_typed ['a', '\t', 'c'] ∧
    normalize_typed ['a', '\t', 'c'] = ['A', '\t', 'C'] ∧
    isPySpace '\t' = true := by decide

/-- C8 (amended): every sequence produced by ingestion (typed input or
fetched FASTA body) is free of spaces, free of newlines, and contains no
lowercase ASCII letter; whitespace other than `' '` and `'\n'` (such as an
interior tab or carriage return) is not removed and may survive. -/
theorem c8_amended (raw : List Char) (c : Char) :
    (c ∈ normalize_typed raw →
      c ≠ ' ' ∧ c ≠ '\n' ∧ ¬ (97 ≤ c.toNat ∧ c.toNat ≤ 122)) ∧
    (c ∈ extract_ncbi raw →
      c ≠ ' ' ∧ c ≠ '\n' ∧ ¬ (97 ≤ c.toNat ∧ c.toNat ≤ 122)) := by
  constructor
  · intro hc
    simp only [normalize_typed, List.mem_filter, List.mem_map,
      decide_eq_true_eq] at hc
    obtain ⟨⟨⟨d, _, rfl⟩, hsp⟩, hnl⟩ := hc
    exact ⟨hsp, hnl, pyUpper_not_lower d⟩
  · intro hc
    simp only [extract_ncbi, List.mem_filter, List.mem_map,
      decide_eq_true_eq] at hc
    obtain ⟨⟨⟨d, _, rfl⟩, hsp⟩, hnl⟩ := hc
    exact ⟨hsp, hnl, pyUpper_not_lower d⟩

/-- Witness for C8 (amended) at a typed input with a lowercase letter. -/
theorem c8_witness :
    ('A' : Char) ≠ ' ' ∧ ('A' : Char) ≠ '\n' ∧
    ¬ (97 ≤ ('A' : Char).toNat ∧ ('A' : Char).toNat ≤ 122) :=
  (c8_amended ['a', '\t', 'c'] 'A').1 (by decide)

/-- C9: a failed remote retrieval (network error, non-2xx response, or an
empty extracted body) sets no new sequence: the prior state is preserved
exactly. -/
theorem c9_falha_preserva_estado (st : EstadoAtual) (accession : List Char)
    (r : FetchOutcome) (h : buscar_sequencia_ncbi r = none) :
    opcao2 st accession r = st ∧
    buscar_sequencia_ncbi FetchOutcome.erro_rede = none ∧
    buscar_sequencia_ncbi FetchOutcome.erro_http = none ∧
    (∀ corpo : List Char, extract_ncbi corpo = [] →
      buscar_sequencia_ncbi (FetchOutcome.sucesso corpo) = none) := by
  refine ⟨?_, rfl, rfl, ?_⟩
  · unfold opcao2
    split_ifs
    · rfl
    · rw [h]
  · intro corpo hcorpo
    simp [buscar_sequencia_ncbi, hcorpo]

/-- Witness for C9: a network failure leaves a loaded DNA state intact. -/
theorem c9_witness :
    opcao2 ⟨some ['A', 'C'], some Tipo.DNA⟩ ['X'] FetchOutcome.erro_rede
      = ⟨some ['A', 'C'], some Tipo.DNA⟩ :=
  (c9_falha_preserva_estado ⟨some ['A', 'C'], some Tipo.DNA⟩ ['X']
    FetchOutcome.erro_rede rfl).1
